import Mathlib

/-!
Verification of the financial-analysis pipeline (`data_processor.py`,
`comparativo.py`).

Shallow embedding conventions:
* A spreadsheet cell is either null (pandas `NaN`) or a string.  Numeric
  cells are represented by their textual rendering, which is what
  `astype(str)` produces before the normalizer runs.
* Because the normalizer deletes every `.` and `,` before `pd.to_numeric`,
  every successfully parsed value is an integer, so normalized values are
  modelled as `Int` (exact arithmetic; float rounding is out of scope).
* `pd.to_numeric(..., errors="coerce")` yields an `int64` column when every
  entry parses and a `float64` column as soon as one entry coerces to
  `NaN`.  The column dtype matters when a cleaned frame is rendered back to
  text (`str(100)` is `"100"` but `str(100.0)` is `"100.0"`), so the
  cleaned frame carries one dtype flag per tracked value column.
* Exceptions reported to the caller become `Except`.
-/

namespace AnaliseFinancas

/-- A spreadsheet cell: pandas `NaN` or textual content (numeric cells are
represented by their `astype(str)` rendering). -/
inductive Cell where
  | null : Cell
  | str (s : String) : Cell
deriving DecidableEq

/-- A raw input row with the five configured columns
`["Conta", "Valor_2024", "Perc_2024", "Valor_2025", "Perc_2025"]`. -/
structure RawRow where
  conta : Cell
  valor_2024 : Cell
  perc_2024 : Cell
  valor_2025 : Cell
  perc_2025 : Cell
deriving DecidableEq

/-- Characters deleted by `str.replace('[R$.,\s]', '', regex=True)`:
`R`, `$`, `.`, `,` and whitespace. -/
def isStrippedChar (c : Char) : Bool :=
  c = 'R' || c = '$' || c = '.' || c = ',' || c.isWhitespace

/-- The character-deletion pass of the normalizer. -/
def stripChars (l : List Char) : List Char :=
  l.filter (fun c => !isStrippedChar c)

/-- Decimal digit test used by the numeric parser model. -/
def isDigitC (c : Char) : Bool :=
  c = '0' || c = '1' || c = '2' || c = '3' || c = '4' ||
  c = '5' || c = '6' || c = '7' || c = '8' || c = '9'

/-- Value of a decimal digit character. -/
def digitVal (c : Char) : Nat :=
  if c = '1' then 1 else if c = '2' then 2 else if c = '3' then 3 else
  if c = '4' then 4 else if c = '5' then 5 else if c = '6' then 6 else
  if c = '7' then 7 else if c = '8' then 8 else if c = '9' then 9 else 0

/-- Reads a digit string as a natural number (most significant first). -/
def digitsToNat (l : List Char) : Nat :=
  l.foldl (fun a c => 10 * a + digitVal c) 0

/-- `pd.to_numeric(..., errors="coerce")` applied to an already stripped
string: an optional leading minus sign followed by a non-empty digit run
parses to the evident integer; anything else (including the empty string
and `"nan"`, the rendering of a null cell) coerces to `NaN`, modelled as
`none`. -/
def parseNumeric (cs : List Char) : Option Int :=
  match cs with
  | [] => none
  | c :: rest =>
    if c = '-' then
      if rest = [] then none
      else if rest.all isDigitC then some (-(digitsToNat rest : Int)) else none
    else if (c :: rest).all isDigitC then some ((digitsToNat (c :: rest) : Int)) else none

/-- The Numeric Normalizer applied to one cell
(`pd.to_numeric(df[col].astype(str).str.replace('[R$.,\s]', '', regex=True),
errors="coerce")`): a null cell renders as `"nan"` which coerces to `NaN`. -/
def normalizeCell : Cell → Option Int
  | Cell.null => none
  | Cell.str s => parseNumeric (stripChars s.data)

/-- A row after the per-column normalization, before the null/zero drops. -/
structure NRow where
  conta : Cell
  valor_2024 : Option Int
  perc_2024 : Cell
  valor_2025 : Option Int
  perc_2025 : Cell
deriving DecidableEq

/-- A row of the cleaned frame: both tracked values parsed. -/
structure CRow where
  conta : Cell
  valor_2024 : Int
  perc_2024 : Cell
  valor_2025 : Int
  perc_2025 : Cell
deriving DecidableEq

/-- Normalizes the two tracked value columns of a row; the other columns
pass through untouched. -/
def normRow (r : RawRow) : NRow :=
  ⟨r.conta, normalizeCell r.valor_2024, r.perc_2024,
    normalizeCell r.valor_2025, r.perc_2025⟩

/-- Extracts the parsed values of a row all of whose tracked values are
known to be present. -/
def toCRow (n : NRow) : CRow :=
  ⟨n.conta, n.valor_2024.getD 0, n.perc_2024, n.valor_2025.getD 0, n.perc_2025⟩

/-- `dropna(how="all")` drops a row exactly when every field is null. -/
def allNull (r : RawRow) : Prop :=
  r.conta = Cell.null ∧ r.valor_2024 = Cell.null ∧ r.perc_2024 = Cell.null ∧
    r.valor_2025 = Cell.null ∧ r.perc_2025 = Cell.null

instance (r : RawRow) : Decidable (allNull r) := by
  unfold allNull; infer_instance

/-- The cleaned frame: surviving rows plus the dtype of each tracked value
column (`float64` exactly when some entry of the column coerced to `NaN`
during `pd.to_numeric`). -/
structure CleanedData where
  rows : List CRow
  float_2024 : Bool
  float_2025 : Bool
deriving DecidableEq

/-- `FinancialDataProcessor.clean_data`: drop fully blank rows, normalize
the tracked value columns, drop rows with an unparsed tracked value, drop
rows whose tracked values are all zero. -/
def clean_data (raw : List RawRow) : CleanedData :=
  let noBlank := raw.filter (fun r => !(decide (allNull r)))
  let norm := noBlank.map normRow
  let d2 := norm.filter (fun r => r.valor_2024.isSome)
  let d3 := d2.filter (fun r => r.valor_2025.isSome)
  let d4 := d3.filter (fun r =>
    !(decide (r.valor_2024 = some 0 ∧ r.valor_2025 = some 0)))
  ⟨d4.map toCRow,
    norm.any (fun r => decide (r.valor_2024 = none)),
    norm.any (fun r => decide (r.valor_2025 = none))⟩

/-- Decimal digit character for a value below ten. -/
def digitChar (n : Nat) : Char :=
  if n = 1 then '1' else if n = 2 then '2' else if n = 3 then '3' else
  if n = 4 then '4' else if n = 5 then '5' else if n = 6 then '6' else
  if n = 7 then '7' else if n = 8 then '8' else if n = 9 then '9' else '0'

/-- Decimal rendering of a positive natural, fuel-driven so that it
computes by structural recursion (`fuel ≥ n` suffices). -/
def natDigitsAux : Nat → Nat → List Char
  | 0, _ => []
  | fuel + 1, n =>
    if n = 0 then [] else natDigitsAux fuel (n / 10) ++ [digitChar (n % 10)]

/-- Decimal rendering of a natural number, as Python `str` produces it. -/
def natDigits (n : Nat) : List Char :=
  if n = 0 then ['0'] else natDigitsAux n n

/-- Python `str` applied to an `int`. -/
def renderInt (z : Int) : List Char :=
  if z < 0 then '-' :: natDigits z.natAbs else natDigits z.natAbs

/-- `astype(str)` applied to one entry of a numeric column: a `float64`
column renders an integral value with a trailing `".0"`, an `int64` column
without it. -/
def renderValue (isFloat : Bool) (z : Int) : String :=
  ⟨renderInt z ++ (if isFloat then ['.', '0'] else [])⟩

/-- Renders a cleaned row back to raw textual form, as feeding the cleaned
frame into `clean_data` again would present it. -/
def renderRow (f24 f25 : Bool) (r : CRow) : RawRow :=
  ⟨r.conta, Cell.str (renderValue f24 r.valor_2024), r.perc_2024,
    Cell.str (renderValue f25 r.valor_2025), r.perc_2025⟩

/-- The raw-row collection a cleaned frame presents when cleaned again. -/
def recleanInput (d : CleanedData) : List RawRow :=
  d.rows.map (renderRow d.float_2024 d.float_2025)

/-- The five variation bands of `_classify_variation`. -/
inductive Band where
  | altoCrescimento : Band
  | crescimentoModerado : Band
  | estavel : Band
  | declinioModerado : Band
  | altoDeclinio : Band
deriving DecidableEq

/-- `FinancialDataProcessor._classify_variation`: cascading strict
comparisons, first match wins. -/
def classify_variation (percentage : ℚ) : Band :=
  if percentage > 20 then Band.altoCrescimento
  else if percentage > 5 then Band.crescimentoModerado
  else if percentage > -5 then Band.estavel
  else if percentage > -20 then Band.declinioModerado
  else Band.altoDeclinio

/-- A processed row: the cleaned row plus the derived columns
`Diferença_R$`, `Diferença_%` and `Classificação`. -/
structure DRow where
  conta : Cell
  valor_2024 : Int
  perc_2024 : Cell
  valor_2025 : Int
  perc_2025 : Cell
  diferenca_rs : Int
  diferenca_pct : ℚ
  classificacao : Band
deriving DecidableEq

/-- `FinancialDataProcessor.calculate_differences` on one row:
`Diferença_R$ = Valor_2025 - Valor_2024`;
`Diferença_% = np.where(Valor_2024 != 0, Diferença_R$ / Valor_2024 * 100, 0)`;
`Classificação = _classify_variation(Diferença_%)`. -/
def calculate_differences (r : CRow) : DRow :=
  let d : Int := r.valor_2025 - r.valor_2024
  let p : ℚ :=
    if r.valor_2024 ≠ 0 then ((d : ℚ) / (r.valor_2024 : ℚ)) * 100 else 0
  ⟨r.conta, r.valor_2024, r.perc_2024, r.valor_2025, r.perc_2025,
    d, p, classify_variation p⟩

/-- `Series.max()`: `NaN` (`none`) on an empty column. -/
def maxQ : List ℚ → Option ℚ
  | [] => none
  | x :: xs => some (xs.foldl max x)

/-- `Series.min()`: `NaN` (`none`) on an empty column. -/
def minQ : List ℚ → Option ℚ
  | [] => none
  | x :: xs => some (xs.foldl min x)

/-- `Series.idxmax()`: position of the first occurrence of the maximum. -/
def idxmax (l : List ℚ) : Option Nat :=
  match maxQ l with
  | none => none
  | some m => some (l.findIdx (fun x => decide (x = m)))

/-- `Series.idxmin()`: position of the first occurrence of the minimum. -/
def idxmin (l : List ℚ) : Option Nat :=
  match minQ l with
  | none => none
  | some m => some (l.findIdx (fun x => decide (x = m)))

/-- The summary dictionary built by `get_summary_statistics`.  Fields that
pandas leaves as `NaN` on an empty frame (`mean`, `max`, `min`) are
`Option`-valued, `none` standing for `NaN`. -/
structure Summary where
  total_accounts : Nat
  total_2024 : Int
  total_2025 : Int
  total_difference : Int
  average_growth : Option ℚ
  positive_variations : Nat
  negative_variations : Nat
  stable_variations : Nat
  max_growth_account : Cell
  max_growth_percentage : Option ℚ
  max_decline_account : Cell
  max_decline_percentage : Option ℚ
deriving DecidableEq

/-- `FinancialDataProcessor.get_summary_statistics`.  The extreme-account
lookups mirror `df.loc[df["Diferença_%"].idxmax(), "Conta"] if not df.empty
else ""`. -/
def get_summary_statistics (rows : List DRow) : Summary :=
  let pcts := rows.map (fun r => r.diferenca_pct)
  { total_accounts := rows.length
    total_2024 := (rows.map (fun r => r.valor_2024)).sum
    total_2025 := (rows.map (fun r => r.valor_2025)).sum
    total_difference := (rows.map (fun r => r.diferenca_rs)).sum
    average_growth :=
      if rows.length = 0 then none else some (pcts.sum / (rows.length : ℚ))
    positive_variations := (rows.filter (fun r => decide (r.diferenca_rs > 0))).length
    negative_variations := (rows.filter (fun r => decide (r.diferenca_rs < 0))).length
    stable_variations := (rows.filter (fun r => decide (r.diferenca_rs = 0))).length
    max_growth_account :=
      match idxmax pcts with
      | none => Cell.str ""
      | some i => (rows[i]?.map (fun r => r.conta)).getD (Cell.str "")
    max_growth_percentage := maxQ pcts
    max_decline_account :=
      match idxmin pcts with
      | none => Cell.str ""
      | some i => (rows[i]?.map (fun r => r.conta)).getD (Cell.str "")
    max_decline_percentage := minQ pcts }

/-- The fatal pipeline error of `FinancialAnalyzer.run_analysis`
(`ValueError("Nenhum dado válido encontrado após processamento")`). -/
inductive AnalysisError where
  | emptyResult : AnalysisError
deriving DecidableEq

/-- Stages 1–2 of `FinancialAnalyzer.run_analysis`: clean, derive, and
abort with the empty-result error before any summary/export/render work
when no row survived filtering. -/
def run_analysis (raw : List RawRow) : Except AnalysisError (List DRow × Summary) :=
  let df := (clean_data raw).rows.map calculate_differences
  if df.isEmpty then Except.error AnalysisError.emptyResult
  else Except.ok (df, get_summary_statistics df)

/-! ### Characterization of the cleaning stage -/

/-- The exact drop condition of `clean_data`: fully blank, a tracked value
that fails to normalize, or all tracked values zero. -/
def dropped (r : RawRow) : Prop :=
  allNull r ∨ normalizeCell r.valor_2024 = none ∨ normalizeCell r.valor_2025 = none ∨
    (normalizeCell r.valor_2024 = some 0 ∧ normalizeCell r.valor_2025 = some 0)

instance (r : RawRow) : Decidable (dropped r) := by
  unfold dropped; infer_instance

lemma normalizeCell_of_allNull_left (r : RawRow) (h : allNull r) :
    normalizeCell r.valor_2024 = none := by
  rw [h.2.1]; rfl

lemma keep_bool (r : RawRow) :
    (((!(decide ((normRow r).valor_2024 = some 0 ∧ (normRow r).valor_2025 = some 0)) &&
        (normRow r).valor_2025.isSome) && (normRow r).valor_2024.isSome) &&
      !(decide (allNull r))) = !(decide (dropped r)) := by
  have h24 : (normRow r).valor_2024 = normalizeCell r.valor_2024 := rfl
  have h25 : (normRow r).valor_2025 = normalizeCell r.valor_2025 := rfl
  by_cases hn : allNull r
  · have := normalizeCell_of_allNull_left r hn
    simp [dropped, h24, h25, hn, this]
  · cases hv : normalizeCell r.valor_2024 with
    | none => simp [dropped, h24, h25, hn, hv]
    | some a =>
      cases hw : normalizeCell r.valor_2025 with
      | none => simp [dropped, h24, h25, hn, hv, hw]
      | some b =>
        by_cases ha : a = 0 <;> by_cases hb : b = 0 <;>
          simp [dropped, h24, h25, hn, hv, hw, ha, hb]

/-- `clean_data` in closed form: one order-preserving filter over the raw
rows followed by the per-row normalization. -/
lemma clean_data_rows_eq (raw : List RawRow) :
    (clean_data raw).rows =
      (raw.filter (fun r => !(decide (dropped r)))).map (fun r => toCRow (normRow r)) := by
  show ((((((raw.filter (fun r => !(decide (allNull r)))).map normRow).filter
        (fun n => n.valor_2024.isSome)).filter (fun n => n.valor_2025.isSome)).filter
        (fun n => !(decide (n.valor_2024 = some 0 ∧ n.valor_2025 = some 0)))).map toCRow) = _
  rw [List.filter_filter, List.filter_filter, List.filter_map, List.filter_filter,
    List.map_map]
  rw [List.filter_congr (fun r _ => ?_)]
  · rfl
  · show _ = ((fun r => !(decide (dropped r))) r)
    simpa [Function.comp] using keep_bool r

/-! ### Decimal rendering round-trips through the normalizer -/

lemma digitVal_digitChar {n : Nat} (h : n < 10) : digitVal (digitChar n) = n := by
  interval_cases n <;> rfl

lemma isDigitC_digitChar {n : Nat} (h : n < 10) : isDigitC (digitChar n) = true := by
  interval_cases n <;> rfl

lemma digitsToNat_append_singleton (l : List Char) (c : Char) :
    digitsToNat (l ++ [c]) = 10 * digitsToNat l + digitVal c := by
  unfold digitsToNat
  rw [List.foldl_append]
  rfl

lemma digitsToNat_natDigitsAux :
    ∀ fuel n, n ≤ fuel → digitsToNat (natDigitsAux fuel n) = n := by
  intro fuel
  induction fuel with
  | zero => intro n hn; interval_cases n; rfl
  | succ f ih =>
    intro n hn
    rw [natDigitsAux]
    by_cases h0 : n = 0
    · simp [h0, digitsToNat]
    · rw [if_neg h0, digitsToNat_append_singleton, ih (n / 10) (by omega),
        digitVal_digitChar (Nat.mod_lt n (by omega))]
      omega

lemma all_isDigitC_natDigitsAux :
    ∀ fuel n, (natDigitsAux fuel n).all isDigitC = true := by
  intro fuel
  induction fuel with
  | zero => intro n; rfl
  | succ f ih =>
    intro n
    rw [natDigitsAux]
    by_cases h0 : n = 0
    · simp [h0]
    · rw [if_neg h0, List.all_append]
      simp [ih, isDigitC_digitChar (Nat.mod_lt n (by omega))]

lemma digitsToNat_natDigits (n : Nat) : digitsToNat (natDigits n) = n := by
  unfold natDigits
  by_cases h0 : n = 0
  · simp [h0]; rfl
  · rw [if_neg h0]; exact digitsToNat_natDigitsAux n n le_rfl

lemma all_isDigitC_natDigits (n : Nat) : (natDigits n).all isDigitC = true := by
  unfold natDigits
  by_cases h0 : n = 0
  · simp [h0]; rfl
  · rw [if_neg h0]; exact all_isDigitC_natDigitsAux n n

lemma natDigits_ne_nil (n : Nat) : natDigits n ≠ [] := by
  unfold natDigits
  by_cases h0 : n = 0
  · simp [h0]
  · rw [if_neg h0]
    obtain ⟨m, rfl⟩ : ∃ m, n = m + 1 := ⟨n - 1, by omega⟩
    rw [natDigitsAux, if_neg h0]
    simp

lemma ne_minus_of_isDigitC {c : Char} (h : isDigitC c = true) : ¬(c = '-') := by
  intro hc; rw [hc] at h; exact absurd h (by decide)

lemma not_stripped_of_isDigitC {c : Char} (h : isDigitC c = true) :
    isStrippedChar c = false := by
  simp only [isDigitC, Bool.or_eq_true, decide_eq_true_eq] at h
  rcases h with (((((((((h | h) | h) | h) | h) | h) | h) | h) | h) | h) <;>
    subst h <;> rfl

lemma stripChars_of_all_digits {l : List Char} (h : l.all isDigitC = true) :
    stripChars l = l := by
  apply List.filter_eq_self.mpr
  intro c hc
  have := List.all_eq_true.mp h c hc
  simp [not_stripped_of_isDigitC this]

lemma parseNumeric_all_digits {l : List Char} (h : l.all isDigitC = true)
    (hne : l ≠ []) : parseNumeric l = some ((digitsToNat l : Int)) := by
  obtain ⟨c, rest, rfl⟩ : ∃ c rest, l = c :: rest := by
    cases l with
    | nil => exact absurd rfl hne
    | cons c rest => exact ⟨c, rest, rfl⟩
  have hc : isDigitC c = true := by
    have := List.all_eq_true.mp h c (by simp)
    simpa using this
  rw [parseNumeric, if_neg (ne_minus_of_isDigitC hc), if_pos h]

lemma parseNumeric_renderInt (z : Int) : parseNumeric (renderInt z) = some z := by
  unfold renderInt
  by_cases hz : z < 0
  · rw [if_pos hz, parseNumeric, if_pos rfl, if_neg (natDigits_ne_nil _),
      if_pos (all_isDigitC_natDigits _), digitsToNat_natDigits]
    congr 1
    omega
  · rw [if_neg hz, parseNumeric_all_digits (all_isDigitC_natDigits _) (natDigits_ne_nil _),
      digitsToNat_natDigits]
    congr 1
    omega

lemma stripChars_renderInt (z : Int) : stripChars (renderInt z) = renderInt z := by
  unfold renderInt
  by_cases hz : z < 0
  · rw [if_pos hz]
    show List.filter _ ('-' :: _) = _
    rw [List.filter_cons_of_pos (by rfl)]
    congr 1
    exact stripChars_of_all_digits (all_isDigitC_natDigits _)
  · rw [if_neg hz]
    exact stripChars_of_all_digits (all_isDigitC_natDigits _)

/-- An integer rendered by an `int64` column normalizes back to itself. -/
lemma normalizeCell_render_int (z : Int) :
    normalizeCell (Cell.str (renderValue false z)) = some z := by
  show parseNumeric (stripChars (renderInt z ++ [])) = some z
  rw [List.append_nil, stripChars_renderInt, parseNumeric_renderInt]

/-- An integral value rendered by a `float64` column (`"…​.0"`) normalizes
to ten times itself: the decimal point is deleted, not interpreted. -/
lemma normalizeCell_render_float (z : Int) :
    normalizeCell (Cell.str (renderValue true z)) = some (10 * z) := by
  show parseNumeric (stripChars (renderInt z ++ ['.', '0'])) = some (10 * z)
  unfold stripChars
  rw [List.filter_append]
  show parseNumeric (stripChars (renderInt z) ++ ['0']) = _
  rw [stripChars_renderInt]
  unfold renderInt
  have hall : ∀ n : Nat, ((natDigits n ++ ['0']).all isDigitC) = true := by
    intro n
    rw [List.all_append, all_isDigitC_natDigits]
    decide
  have hd0 : digitVal '0' = 0 := rfl
  by_cases hz : z < 0
  · rw [if_pos hz]
    show parseNumeric ('-' :: (natDigits z.natAbs ++ ['0'])) = _
    rw [parseNumeric, if_pos rfl, if_neg (by simp), if_pos (hall _),
      digitsToNat_append_singleton, digitsToNat_natDigits, hd0]
    congr 1
    omega
  · rw [if_neg hz]
    rw [parseNumeric_all_digits (hall _) (by simp),
      digitsToNat_append_singleton, digitsToNat_natDigits, hd0]
    congr 1
    omega

/-! ### Re-cleaning a cleaned frame -/

/-- The normalized form of a cleaned row whose values parsed back. -/
def nOf (r : CRow) : NRow :=
  ⟨r.conta, some r.valor_2024, r.perc_2024, some r.valor_2025, r.perc_2025⟩

lemma normRow_renderRow_int (r : CRow) :
    normRow (renderRow false false r) = nOf r := by
  unfold normRow renderRow nOf
  simp [normalizeCell_render_int]

lemma toCRow_nOf (r : CRow) : toCRow (nOf r) = r := rfl

lemma not_allNull_renderRow (f24 f25 : Bool) (r : CRow) :
    ¬ allNull (renderRow f24 f25 r) := by
  intro h
  exact absurd h.2.1 (by simp [renderRow])

/-- No surviving row of `clean_data` has both tracked values zero. -/
lemma mem_clean_rows_not_both_zero {raw : List RawRow} {r : CRow}
    (h : r ∈ (clean_data raw).rows) :
    ¬(r.valor_2024 = 0 ∧ r.valor_2025 = 0) := by
  rw [clean_data_rows_eq] at h
  obtain ⟨r0, hr0, rfl⟩ := List.mem_map.mp h
  have hkeep := (List.mem_filter.mp hr0).2
  have hnd : ¬ dropped r0 := by simpa using hkeep
  rw [dropped] at hnd
  push_neg at hnd
  obtain ⟨-, h24, h25, hz⟩ := hnd
  cases hv : normalizeCell r0.valor_2024 with
  | none => exact absurd hv h24
  | some a =>
    cases hw : normalizeCell r0.valor_2025 with
    | none => exact absurd hw h25
    | some b =>
      intro ⟨hz24, hz25⟩
      have ha : (toCRow (normRow r0)).valor_2024 = a := by
        simp [toCRow, normRow, hv]
      have hb : (toCRow (normRow r0)).valor_2025 = b := by
        simp [toCRow, normRow, hw]
      rw [ha] at hz24
      rw [hb] at hz25
      subst hz24
      subst hz25
      exact hz (hv ▸ rfl) hw

/-- Cleaning the textual rendering of integer-typed cleaned rows
reproduces them exactly. -/
lemma clean_data_render_int (rows : List CRow)
    (hz : ∀ r ∈ rows, ¬(r.valor_2024 = 0 ∧ r.valor_2025 = 0)) :
    clean_data (rows.map (renderRow false false)) = ⟨rows, false, false⟩ := by
  have h1 : (rows.map (renderRow false false)).filter
      (fun r => !(decide (allNull r))) = rows.map (renderRow false false) := by
    apply List.filter_eq_self.mpr
    intro a ha
    obtain ⟨r, -, rfl⟩ := List.mem_map.mp ha
    simp [not_allNull_renderRow]
  have h2 : (rows.map (renderRow false false)).map normRow = rows.map nOf := by
    rw [List.map_map]
    exact congrArg (fun f => List.map f rows) (funext normRow_renderRow_int)
  have h3 : (rows.map nOf).filter (fun n => n.valor_2024.isSome) = rows.map nOf := by
    apply List.filter_eq_self.mpr
    intro a ha
    obtain ⟨r, -, rfl⟩ := List.mem_map.mp ha
    rfl
  have h4 : (rows.map nOf).filter (fun n => n.valor_2025.isSome) = rows.map nOf := by
    apply List.filter_eq_self.mpr
    intro a ha
    obtain ⟨r, -, rfl⟩ := List.mem_map.mp ha
    rfl
  have h5 : (rows.map nOf).filter (fun n =>
      !(decide (n.valor_2024 = some 0 ∧ n.valor_2025 = some 0))) = rows.map nOf := by
    apply List.filter_eq_self.mpr
    intro a ha
    obtain ⟨r, hr, rfl⟩ := List.mem_map.mp ha
    have := hz r hr
    simp only [nOf]
    by_cases h24 : r.valor_2024 = 0 <;> by_cases h25 : r.valor_2025 = 0 <;>
      simp_all
  have h6 : (rows.map nOf).map toCRow = rows := by
    rw [List.map_map]
    have : (toCRow ∘ nOf) = id := funext fun r => toCRow_nOf r
    rw [this, List.map_id]
  have h7 : (rows.map nOf).any (fun n => decide (n.valor_2024 = none)) = false := by
    simp only [List.any_eq_false]
    intro x hx
    obtain ⟨r, -, rfl⟩ := List.mem_map.mp hx
    simp [nOf]
  have h8 : (rows.map nOf).any (fun n => decide (n.valor_2025 = none)) = false := by
    simp only [List.any_eq_false]
    intro x hx
    obtain ⟨r, -, rfl⟩ := List.mem_map.mp hx
    simp [nOf]
  show CleanedData.mk _ _ _ = _
  rw [h1, h2, h3, h4, h5, h6, h7, h8]

/-! ### Extremum scans -/

lemma foldl_max_mem (xs : List ℚ) : ∀ x : ℚ, xs.foldl max x ∈ x :: xs := by
  induction xs with
  | nil => intro x; simp
  | cons z zs ih =>
    intro x
    have := ih (max x z)
    rcases List.mem_cons.mp this with h | h
    · rcases max_choice x z with hm | hm <;> rw [List.foldl_cons, h, hm] <;> simp
    · simp [List.foldl_cons, List.mem_cons.mpr (Or.inr (List.mem_cons.mpr (Or.inr h)))]

lemma le_foldl_max (xs : List ℚ) :
    ∀ x : ℚ, ∀ y ∈ x :: xs, y ≤ xs.foldl max x := by
  induction xs with
  | nil => intro x y hy; simp at hy; simp [hy]
  | cons z zs ih =>
    intro x y hy
    rw [List.foldl_cons]
    rcases List.mem_cons.mp hy with rfl | h
    · exact le_trans (le_max_left y z) (ih (max y z) _ (List.mem_cons_self _ _))
    · rcases List.mem_cons.mp h with rfl | h
      · exact le_trans (le_max_right x y) (ih (max x y) _ (List.mem_cons_self _ _))
      · exact ih (max x z) y (List.mem_cons.mpr (Or.inr h))

lemma foldl_min_mem (xs : List ℚ) : ∀ x : ℚ, xs.foldl min x ∈ x :: xs := by
  induction xs with
  | nil => intro x; simp
  | cons z zs ih =>
    intro x
    have := ih (min x z)
    rcases List.mem_cons.mp this with h | h
    · rcases min_choice x z with hm | hm <;> rw [List.foldl_cons, h, hm] <;> simp
    · simp [List.foldl_cons, List.mem_cons.mpr (Or.inr (List.mem_cons.mpr (Or.inr h)))]

lemma foldl_min_le (xs : List ℚ) :
    ∀ x : ℚ, ∀ y ∈ x :: xs, xs.foldl min x ≤ y := by
  induction xs with
  | nil => intro x y hy; simp at hy; simp [hy]
  | cons z zs ih =>
    intro x y hy
    rw [List.foldl_cons]
    rcases List.mem_cons.mp hy with rfl | h
    · exact le_trans (ih (min y z) _ (List.mem_cons_self _ _)) (min_le_left y z)
    · rcases List.mem_cons.mp h with rfl | h
      · exact le_trans (ih (min x y) _ (List.mem_cons_self _ _)) (min_le_right x y)
      · exact ih (min x z) y (List.mem_cons.mpr (Or.inr h))

lemma maxQ_mem {l : List ℚ} {m : ℚ} (h : maxQ l = some m) : m ∈ l := by
  cases l with
  | nil => simp [maxQ] at h
  | cons x xs =>
    rw [maxQ] at h
    have := foldl_max_mem xs x
    rwa [Option.some_inj.mp h.symm]

lemma le_maxQ {l : List ℚ} {m : ℚ} (h : maxQ l = some m) : ∀ y ∈ l, y ≤ m := by
  cases l with
  | nil => simp [maxQ] at h
  | cons x xs =>
    rw [maxQ] at h
    intro y hy
    rw [← Option.some_inj.mp h]
    exact le_foldl_max xs x y hy

lemma minQ_mem {l : List ℚ} {m : ℚ} (h : minQ l = some m) : m ∈ l := by
  cases l with
  | nil => simp [minQ] at h
  | cons x xs =>
    rw [minQ] at h
    have := foldl_min_mem xs x
    rwa [Option.some_inj.mp h.symm]

lemma minQ_le {l : List ℚ} {m : ℚ} (h : minQ l = some m) : ∀ y ∈ l, m ≤ y := by
  cases l with
  | nil => simp [minQ] at h
  | cons x xs =>
    rw [minQ] at h
    intro y hy
    rw [← Option.some_inj.mp h]
    exact foldl_min_le xs x y hy

/-- The first position of `rows` whose `diferenca_pct` equals `m`: it
exists, carries `m`, and every earlier row carries a different value. -/
lemma first_pct_eq_spec {rows : List DRow} {m : ℚ}
    (hmem : m ∈ rows.map (fun r => r.diferenca_pct)) :
    ∃ i ri, (rows.map (fun r => r.diferenca_pct)).findIdx
        (fun x => decide (x = m)) = i ∧
      rows[i]? = some ri ∧ ri.diferenca_pct = m ∧
      ∀ j rj, j < i → rows[j]? = some rj → rj.diferenca_pct ≠ m := by
  set pcts := rows.map (fun r => r.diferenca_pct) with hpcts
  have hex : ∃ x ∈ pcts, (fun x => decide (x = m)) x = true := ⟨m, hmem, by simp⟩
  have hi : pcts.findIdx (fun x => decide (x = m)) < pcts.length :=
    List.findIdx_lt_length_of_exists hex
  have hlen : pcts.length = rows.length := by simp [hpcts]
  have hi' : pcts.findIdx (fun x => decide (x = m)) < rows.length := hlen ▸ hi
  refine ⟨pcts.findIdx (fun x => decide (x = m)), rows[pcts.findIdx (fun x => decide (x = m))],
    rfl, List.getElem?_eq_getElem hi', ?_, ?_⟩
  · have hfi := List.findIdx_getElem (w := hi)
    have hpe : pcts[pcts.findIdx fun x => decide (x = m)] = m := by simpa using hfi
    have hmapped := List.getElem_map (fun r => r.diferenca_pct) (l := rows)
      (n := pcts.findIdx fun x => decide (x = m)) (h := hpcts ▸ hi)
    exact hmapped.symm.trans hpe
  · intro j rj hj hrj
    have hjp : j < pcts.length := lt_trans hj hi
    have hne := List.not_of_lt_findIdx hj
    have hpj : pcts[j] ≠ m := by simpa using hne
    obtain ⟨hjl, hrj'⟩ := List.getElem?_eq_some_iff.mp hrj
    intro hc
    apply hpj
    have hmapj := List.getElem_map (fun r => r.diferenca_pct) (l := rows) (n := j)
      (h := hjp)
    exact hmapj.trans ((congrArg (fun r => r.diferenca_pct) hrj').trans hc)

/-! ### Further helper lemmas -/

lemma sum_map_sub (l : List CRow) :
    (l.map (fun r => r.valor_2025 - r.valor_2024)).sum =
      (l.map (fun r => r.valor_2025)).sum - (l.map (fun r => r.valor_2024)).sum := by
  induction l with
  | nil => simp
  | cons a t ih =>
    simp only [List.map_cons, List.sum_cons, ih]
    ring

lemma sign_partition_aux (rows : List DRow) :
    (rows.filter (fun r => decide (r.diferenca_rs > 0))).length +
      (rows.filter (fun r => decide (r.diferenca_rs < 0))).length +
      (rows.filter (fun r => decide (r.diferenca_rs = 0))).length = rows.length := by
  induction rows with
  | nil => simp
  | cons a t ih =>
    simp only [List.filter_cons, List.length_cons]
    simp only [gt_iff_lt] at ih ⊢
    by_cases h1 : 0 < a.diferenca_rs
    · have h2 : ¬(a.diferenca_rs < 0) := by omega
      have h3 : ¬(a.diferenca_rs = 0) := by omega
      simp [h1, h2, h3]
      omega
    · by_cases h2 : a.diferenca_rs < 0
      · have h3 : ¬(a.diferenca_rs = 0) := by omega
        simp [h1, h2, h3]
        omega
      · have h3 : a.diferenca_rs = 0 := by omega
        simp [h1, h2, h3]
        omega

/-- Every surviving row's values come from successful parses of a raw row. -/
lemma mem_clean_rows_parsed {raw : List RawRow} {r : CRow}
    (h : r ∈ (clean_data raw).rows) :
    ∃ r0, r0 ∈ raw ∧ normalizeCell r0.valor_2024 = some r.valor_2024 ∧
      normalizeCell r0.valor_2025 = some r.valor_2025 := by
  rw [clean_data_rows_eq] at h
  obtain ⟨r0, hr0, rfl⟩ := List.mem_map.mp h
  have hmem := (List.mem_filter.mp hr0).1
  have hnd : ¬ dropped r0 := by simpa using (List.mem_filter.mp hr0).2
  rw [dropped] at hnd
  push_neg at hnd
  obtain ⟨-, h24, h25, -⟩ := hnd
  cases hv : normalizeCell r0.valor_2024 with
  | none => exact absurd hv h24
  | some a =>
    cases hw : normalizeCell r0.valor_2025 with
    | none => exact absurd hw h25
    | some b =>
      refine ⟨r0, hmem, ?_, ?_⟩ <;> simp [toCRow, normRow, hv, hw]

lemma digitsToNat_foldl_shift (b : List Char) :
    ∀ x : Nat, b.foldl (fun a c => 10 * a + digitVal c) x =
      x * 10 ^ b.length + digitsToNat b := by
  induction b with
  | nil => intro x; simp [digitsToNat]
  | cons c t ih =>
    intro x
    simp only [List.foldl_cons, List.length_cons]
    rw [ih (10 * x + digitVal c)]
    have hz : digitsToNat (c :: t) = (10 * 0 + digitVal c) * 10 ^ t.length +
        digitsToNat t := by
      unfold digitsToNat
      rw [List.foldl_cons, ih (10 * 0 + digitVal c)]
      rfl
    rw [hz]
    ring

lemma digitsToNat_append (a b : List Char) :
    digitsToNat (a ++ b) = digitsToNat a * 10 ^ b.length + digitsToNat b := by
  unfold digitsToNat
  rw [List.foldl_append]
  exact digitsToNat_foldl_shift b _

/-! ### Claim theorems -/

/-- C1: the variation classifier is a pure function of the percentage that
returns the first band whose strict threshold matches, in the order
HighGrowth (> 20), ModerateGrowth (> 5), Stable (> -5), ModerateDecline
(> -20), else HighDecline; the boundary inputs 20, 5, -5 and -20 fall into
the lower band. -/
theorem classification_matches_banded_thresholds (p : ℚ) :
    (classify_variation p = Band.altoCrescimento ↔ 20 < p) ∧
    (classify_variation p = Band.crescimentoModerado ↔ 5 < p ∧ p ≤ 20) ∧
    (classify_variation p = Band.estavel ↔ -5 < p ∧ p ≤ 5) ∧
    (classify_variation p = Band.declinioModerado ↔ -20 < p ∧ p ≤ -5) ∧
    (classify_variation p = Band.altoDeclinio ↔ p ≤ -20) ∧
    classify_variation 20 = Band.crescimentoModerado ∧
    classify_variation 5 = Band.estavel ∧
    classify_variation (-5) = Band.declinioModerado ∧
    classify_variation (-20) = Band.altoDeclinio := by
  refine ⟨?_, ?_, ?_, ?_, ?_, by decide, by decide, by decide, by decide⟩ <;>
    unfold classify_variation <;>
    split_ifs with h1 h2 h3 h4 <;>
    simp_all <;>
    intros <;>
    linarith

/-- C1 witness: an input strictly above 20 classifies as HighGrowth. -/
theorem classification_matches_banded_thresholds_witness :
    classify_variation 25 = Band.altoCrescimento :=
  ((classification_matches_banded_thresholds 25).1).mpr (by norm_num)

/-- C2: on a filtered row whose prior value is zero the percentage delta is
exactly 0 (the `np.where` guard), and otherwise it is
`(current - prior) / prior * 100`. -/
theorem percent_difference_zero_guard (r : CRow) :
    (r.valor_2024 = 0 → (calculate_differences r).diferenca_pct = 0) ∧
    (r.valor_2024 ≠ 0 → (calculate_differences r).diferenca_pct =
      (((r.valor_2025 : ℚ) - (r.valor_2024 : ℚ)) / (r.valor_2024 : ℚ)) * 100) := by
  constructor
  · intro h
    simp [calculate_differences, h]
  · intro h
    show (if r.valor_2024 ≠ 0 then
        (((r.valor_2025 - r.valor_2024 : Int) : ℚ) / (r.valor_2024 : ℚ)) * 100
      else 0) = _
    rw [if_pos h]
    push_cast
    ring

/-- C2 witness: prior value 0 with current value 50 yields exactly 0. -/
theorem percent_difference_zero_guard_witness :
    (calculate_differences
      ⟨Cell.str "B", 0, Cell.null, 50, Cell.null⟩).diferenca_pct = 0 :=
  (percent_difference_zero_guard ⟨Cell.str "B", 0, Cell.null, 50, Cell.null⟩).1 rfl

/-- C3: an empty filtered collection makes the pipeline surface the
empty-result error to the caller before the summary/export/render stages,
instead of raising from indexing or producing garbage extremes. -/
theorem empty_filtered_collection_signals_error (raw : List RawRow)
    (h : (clean_data raw).rows = []) :
    run_analysis raw = Except.error AnalysisError.emptyResult := by
  simp [run_analysis, h]

/-- C3 witness: a single all-zero row is dropped entirely, and the run
reports the empty-result error. -/
theorem empty_filtered_collection_signals_error_witness :
    run_analysis [⟨Cell.str "Z", Cell.str "0", Cell.null, Cell.str "0", Cell.null⟩] =
      Except.error AnalysisError.emptyResult :=
  empty_filtered_collection_signals_error
    [⟨Cell.str "Z", Cell.str "0", Cell.null, Cell.str "0", Cell.null⟩] (by decide)

/-- C4: the cleaning stage drops exactly the fully blank rows, the rows
with a tracked value that is null after normalization, and the rows whose
tracked values are all zero; survivors keep their original relative order,
their non-tracked fields unchanged, and carry the normalized values. -/
theorem row_filter_drops_exactly (raw : List RawRow) :
    (clean_data raw).rows =
      (raw.filter (fun r => !(decide (dropped r)))).map (fun r => toCRow (normRow r)) ∧
    ∀ r : RawRow, (toCRow (normRow r)).conta = r.conta ∧
      (toCRow (normRow r)).perc_2024 = r.perc_2024 ∧
      (toCRow (normRow r)).perc_2025 = r.perc_2025 :=
  ⟨clean_data_rows_eq raw, fun _ => ⟨rfl, rfl, rfl⟩⟩

/-- C5 counterexample: cleaning is NOT idempotent.  Row B fails to parse,
so column `Valor_2024` becomes `float64`; the surviving value 100 renders
as `"100.0"` and re-cleaning strips the point, yielding 1000. -/
theorem clean_data_not_idempotent :
    clean_data (recleanInput (clean_data
      [⟨Cell.str "A", Cell.str "100", Cell.null, Cell.str "1", Cell.null⟩,
       ⟨Cell.str "B", Cell.str "abc", Cell.null, Cell.str "2", Cell.null⟩])) ≠
    clean_data
      [⟨Cell.str "A", Cell.str "100", Cell.null, Cell.str "1", Cell.null⟩,
       ⟨Cell.str "B", Cell.str "abc", Cell.null, Cell.str "2", Cell.null⟩] := by
  decide

/-- C5 amended: cleaning is idempotent on every input whose tracked columns
parsed without a single failure (`int64` columns); when a column is
`float64` the rendered decimal point is stripped on re-cleaning, which is
what breaks idempotence in general. -/
theorem clean_data_idempotent_on_int_columns (raw : List RawRow)
    (h24 : (clean_data raw).float_2024 = false)
    (h25 : (clean_data raw).float_2025 = false) :
    clean_data (recleanInput (clean_data raw)) = clean_data raw := by
  have hz : ∀ r ∈ (clean_data raw).rows, ¬(r.valor_2024 = 0 ∧ r.valor_2025 = 0) :=
    fun _ hr => mem_clean_rows_not_both_zero hr
  rw [recleanInput, h24, h25, clean_data_render_int _ hz]
  have heta : CleanedData.mk (clean_data raw).rows (clean_data raw).float_2024
      (clean_data raw).float_2025 = clean_data raw := rfl
  rw [h24, h25] at heta
  exact heta

/-- C5 amended witness: a clean all-integer input survives a second
cleaning unchanged. -/
theorem clean_data_idempotent_on_int_columns_witness :
    clean_data (recleanInput (clean_data
      [⟨Cell.str "A", Cell.str "100", Cell.null, Cell.str "1", Cell.null⟩])) =
    clean_data [⟨Cell.str "A", Cell.str "100", Cell.null, Cell.str "1", Cell.null⟩] :=
  clean_data_idempotent_on_int_columns
    [⟨Cell.str "A", Cell.str "100", Cell.null, Cell.str "1", Cell.null⟩]
    (by decide) (by decide)

/-- C6: for a non-empty processed collection the reported extreme-growth
row attains the maximal `Diferença_%` and the extreme-decline row the
minimal one, and every strictly earlier row is strictly worse — so a tie
resolves to the first occurrence in input order. -/
theorem summary_extremes_first_occurrence (rows : List DRow) (h : rows ≠ []) :
    ∃ (i : Nat) (ri : DRow), rows[i]? = some ri ∧
      (get_summary_statistics rows).max_growth_account = ri.conta ∧
      (get_summary_statistics rows).max_growth_percentage = some ri.diferenca_pct ∧
      (∀ (j : Nat) (rj : DRow), rows[j]? = some rj → rj.diferenca_pct ≤ ri.diferenca_pct) ∧
      (∀ (j : Nat) (rj : DRow), j < i → rows[j]? = some rj → rj.diferenca_pct < ri.diferenca_pct) ∧
      ∃ (k : Nat) (rk : DRow), rows[k]? = some rk ∧
        (get_summary_statistics rows).max_decline_account = rk.conta ∧
        (get_summary_statistics rows).max_decline_percentage = some rk.diferenca_pct ∧
        (∀ (j : Nat) (rj : DRow), rows[j]? = some rj → rk.diferenca_pct ≤ rj.diferenca_pct) ∧
        (∀ (j : Nat) (rj : DRow), j < k → rows[j]? = some rj → rk.diferenca_pct < rj.diferenca_pct) := by
  have hmex : ∃ mm, maxQ (rows.map (fun r => r.diferenca_pct)) = some mm := by
    cases rows with
    | nil => exact absurd rfl h
    | cons a l => exact ⟨_, rfl⟩
  have hnex : ∃ mm, minQ (rows.map (fun r => r.diferenca_pct)) = some mm := by
    cases rows with
    | nil => exact absurd rfl h
    | cons a l => exact ⟨_, rfl⟩
  obtain ⟨m, hm⟩ := hmex
  obtain ⟨mn, hmn⟩ := hnex
  obtain ⟨i, ri, hfind, hget, hpct, hbefore⟩ := first_pct_eq_spec (maxQ_mem hm)
  obtain ⟨k, rk, hfindk, hgetk, hpctk, hbeforek⟩ := first_pct_eq_spec (minQ_mem hmn)
  have hle : ∀ (j : Nat) (rj : DRow), rows[j]? = some rj → rj.diferenca_pct ≤ ri.diferenca_pct := by
    intro j rj hj
    obtain ⟨hjl, hrj⟩ := List.getElem?_eq_some_iff.mp hj
    have hmem : rj ∈ rows := hrj ▸ List.getElem_mem hjl
    have : rj.diferenca_pct ∈ rows.map (fun r => r.diferenca_pct) :=
      List.mem_map_of_mem _ hmem
    rw [hpct]
    exact le_maxQ hm _ this
  have hlek : ∀ (j : Nat) (rj : DRow), rows[j]? = some rj → rk.diferenca_pct ≤ rj.diferenca_pct := by
    intro j rj hj
    obtain ⟨hjl, hrj⟩ := List.getElem?_eq_some_iff.mp hj
    have hmem : rj ∈ rows := hrj ▸ List.getElem_mem hjl
    have : rj.diferenca_pct ∈ rows.map (fun r => r.diferenca_pct) :=
      List.mem_map_of_mem _ hmem
    rw [hpctk]
    exact minQ_le hmn _ this
  refine ⟨i, ri, hget, ?_, ?_, hle, ?_, k, rk, hgetk, ?_, ?_, hlek, ?_⟩
  · show (get_summary_statistics rows).max_growth_account = ri.conta
    simp only [get_summary_statistics, idxmax, hm, hfind, hget]
    rfl
  · show (get_summary_statistics rows).max_growth_percentage = some ri.diferenca_pct
    simp only [get_summary_statistics, hm, hpct]
  · intro j rj hj hjr
    exact lt_of_le_of_ne (hle j rj hjr) (hpct ▸ hbefore j rj hj hjr)
  · show (get_summary_statistics rows).max_decline_account = rk.conta
    simp only [get_summary_statistics, idxmin, hmn, hfindk, hgetk]
    rfl
  · show (get_summary_statistics rows).max_decline_percentage = some rk.diferenca_pct
    simp only [get_summary_statistics, hmn, hpctk]
  · intro j rj hj hjr
    have hne := hpctk ▸ hbeforek j rj hj hjr
    exact lt_of_le_of_ne (hlek j rj hjr) (Ne.symm hne)

/-- C6 witness: on a concrete two-row tie the extremes land on the first
occurrence. -/
theorem summary_extremes_first_occurrence_witness :
    ∃ (i : Nat) (ri : DRow), ([⟨Cell.str "A", 100, Cell.null, 120, Cell.null, 20, 20, Band.crescimentoModerado⟩,
        ⟨Cell.str "B", 50, Cell.null, 60, Cell.null, 10, 20, Band.crescimentoModerado⟩] :
        List DRow)[i]? = some ri ∧
      (get_summary_statistics
        [⟨Cell.str "A", 100, Cell.null, 120, Cell.null, 20, 20, Band.crescimentoModerado⟩,
         ⟨Cell.str "B", 50, Cell.null, 60, Cell.null, 10, 20, Band.crescimentoModerado⟩]).max_growth_account = ri.conta ∧
      (get_summary_statistics
        [⟨Cell.str "A", 100, Cell.null, 120, Cell.null, 20, 20, Band.crescimentoModerado⟩,
         ⟨Cell.str "B", 50, Cell.null, 60, Cell.null, 10, 20, Band.crescimentoModerado⟩]).max_growth_percentage = some ri.diferenca_pct ∧
      (∀ (j : Nat) (rj : DRow), ([⟨Cell.str "A", 100, Cell.null, 120, Cell.null, 20, 20, Band.crescimentoModerado⟩,
          ⟨Cell.str "B", 50, Cell.null, 60, Cell.null, 10, 20, Band.crescimentoModerado⟩] :
          List DRow)[j]? = some rj → rj.diferenca_pct ≤ ri.diferenca_pct) ∧
      (∀ (j : Nat) (rj : DRow), j < i → ([⟨Cell.str "A", 100, Cell.null, 120, Cell.null, 20, 20, Band.crescimentoModerado⟩,
          ⟨Cell.str "B", 50, Cell.null, 60, Cell.null, 10, 20, Band.crescimentoModerado⟩] :
          List DRow)[j]? = some rj → rj.diferenca_pct < ri.diferenca_pct) ∧
      ∃ (k : Nat) (rk : DRow), ([⟨Cell.str "A", 100, Cell.null, 120, Cell.null, 20, 20, Band.crescimentoModerado⟩,
          ⟨Cell.str "B", 50, Cell.null, 60, Cell.null, 10, 20, Band.crescimentoModerado⟩] :
          List DRow)[k]? = some rk ∧
        (get_summary_statistics
          [⟨Cell.str "A", 100, Cell.null, 120, Cell.null, 20, 20, Band.crescimentoModerado⟩,
           ⟨Cell.str "B", 50, Cell.null, 60, Cell.null, 10, 20, Band.crescimentoModerado⟩]).max_decline_account = rk.conta ∧
        (get_summary_statistics
          [⟨Cell.str "A", 100, Cell.null, 120, Cell.null, 20, 20, Band.crescimentoModerado⟩,
           ⟨Cell.str "B", 50, Cell.null, 60, Cell.null, 10, 20, Band.crescimentoModerado⟩]).max_decline_percentage = some rk.diferenca_pct ∧
        (∀ (j : Nat) (rj : DRow), ([⟨Cell.str "A", 100, Cell.null, 120, Cell.null, 20, 20, Band.crescimentoModerado⟩,
            ⟨Cell.str "B", 50, Cell.null, 60, Cell.null, 10, 20, Band.crescimentoModerado⟩] :
            List DRow)[j]? = some rj → rk.diferenca_pct ≤ rj.diferenca_pct) ∧
        (∀ (j : Nat) (rj : DRow), j < k → ([⟨Cell.str "A", 100, Cell.null, 120, Cell.null, 20, 20, Band.crescimentoModerado⟩,
            ⟨Cell.str "B", 50, Cell.null, 60, Cell.null, 10, 20, Band.crescimentoModerado⟩] :
            List DRow)[j]? = some rj → rk.diferenca_pct < rj.diferenca_pct) :=
  summary_extremes_first_occurrence
    [⟨Cell.str "A", 100, Cell.null, 120, Cell.null, 20, 20, Band.crescimentoModerado⟩,
     ⟨Cell.str "B", 50, Cell.null, 60, Cell.null, 10, 20, Band.crescimentoModerado⟩]
    (by decide)

/-- C7: the summary totals are consistent: `total_2025 - total_2024`
equals `total_difference`, exactly, because `total_difference` sums the
per-row `Diferença_R$ = Valor_2025 - Valor_2024`. -/
theorem summary_totals_consistent (crows : List CRow) (_h : crows ≠ []) :
    (get_summary_statistics (crows.map calculate_differences)).total_2025 -
      (get_summary_statistics (crows.map calculate_differences)).total_2024 =
      (get_summary_statistics (crows.map calculate_differences)).total_difference := by
  simp only [get_summary_statistics, List.map_map]
  show (crows.map (fun r => r.valor_2025)).sum - (crows.map (fun r => r.valor_2024)).sum =
    (crows.map (fun r => r.valor_2025 - r.valor_2024)).sum
  exact (sum_map_sub crows).symm

/-- C7 witness: the identity at a concrete two-row collection. -/
theorem summary_totals_consistent_witness :
    (get_summary_statistics
      ([⟨Cell.str "A", 100, Cell.null, 120, Cell.null⟩,
        ⟨Cell.str "C", 200, Cell.null, 100, Cell.null⟩].map calculate_differences)).total_2025 -
      (get_summary_statistics
        ([⟨Cell.str "A", 100, Cell.null, 120, Cell.null⟩,
          ⟨Cell.str "C", 200, Cell.null, 100, Cell.null⟩].map calculate_differences)).total_2024 =
      (get_summary_statistics
        ([⟨Cell.str "A", 100, Cell.null, 120, Cell.null⟩,
          ⟨Cell.str "C", 200, Cell.null, 100, Cell.null⟩].map calculate_differences)).total_difference :=
  summary_totals_consistent
    [⟨Cell.str "A", 100, Cell.null, 120, Cell.null⟩,
     ⟨Cell.str "C", 200, Cell.null, 100, Cell.null⟩] (by decide)

/-- C8: the sign partition is exhaustive and exclusive:
`positive + negative + stable = total_accounts`. -/
theorem summary_sign_partition (rows : List DRow) (_h : rows ≠ []) :
    (get_summary_statistics rows).positive_variations +
      (get_summary_statistics rows).negative_variations +
      (get_summary_statistics rows).stable_variations =
      (get_summary_statistics rows).total_accounts := by
  simp only [get_summary_statistics]
  exact sign_partition_aux rows

/-- C8 witness: the partition at a concrete processed collection. -/
theorem summary_sign_partition_witness :
    (get_summary_statistics
        ([⟨Cell.str "A", 100, Cell.null, 120, Cell.null⟩].map calculate_differences)).positive_variations +
      (get_summary_statistics
        ([⟨Cell.str "A", 100, Cell.null, 120, Cell.null⟩].map calculate_differences)).negative_variations +
      (get_summary_statistics
        ([⟨Cell.str "A", 100, Cell.null, 120, Cell.null⟩].map calculate_differences)).stable_variations =
      (get_summary_statistics
        ([⟨Cell.str "A", 100, Cell.null, 120, Cell.null⟩].map calculate_differences)).total_accounts :=
  summary_sign_partition
    ([⟨Cell.str "A", 100, Cell.null, 120, Cell.null⟩].map calculate_differences) (by decide)

/-- C9: the normalizer strips currency symbols, whitespace and group
punctuation, produces a value or a null marker and never an error;
unparsable values yield null, and the filter stage keeps only rows both of
whose tracked values parsed. -/
theorem normalizer_yields_null_not_error :
    (normalizeCell Cell.null = none) ∧
    (∀ s : String, parseNumeric (stripChars s.data) = none →
      normalizeCell (Cell.str s) = none) ∧
    (∀ raw : List RawRow, ∀ r ∈ (clean_data raw).rows, ∃ r0, r0 ∈ raw ∧
      normalizeCell r0.valor_2024 = some r.valor_2024 ∧
      normalizeCell r0.valor_2025 = some r.valor_2025) ∧
    normalizeCell (Cell.str "R$ 1.234,56") = some 123456 ∧
    normalizeCell (Cell.str "abc") = none := by
  refine ⟨rfl, fun s hs => hs, ?_, by decide, by decide⟩
  intro raw r hr
  exact mem_clean_rows_parsed hr

/-- C9 witness: a concrete unparsable string yields null through the
normalizer. -/
theorem normalizer_yields_null_not_error_witness :
    normalizeCell (Cell.str "xyz") = none :=
  normalizer_yields_null_not_error.2.1 "xyz" (by decide)

/-- C10: the normalizer deletes every `.` and `,` (with `R`, `$` and
whitespace), so a textual value with a decimal separator parses to the
concatenation of its digit runs — scaled by a power of ten — not to the
decimal number; e.g. `"20.5"` normalizes to 205 and `"1,5"` to 15. -/
theorem decimal_separators_deleted (a b : List Char)
    (ha : a.all isDigitC = true) (hb : b.all isDigitC = true) (hne : a ≠ []) :
    normalizeCell (Cell.str ⟨a ++ '.' :: b⟩) = some ((digitsToNat (a ++ b) : Int)) ∧
    normalizeCell (Cell.str ⟨a ++ ',' :: b⟩) = some ((digitsToNat (a ++ b) : Int)) ∧
    digitsToNat (a ++ b) = digitsToNat a * 10 ^ b.length + digitsToNat b ∧
    normalizeCell (Cell.str "20.5") = some 205 ∧
    normalizeCell (Cell.str "1,5") = some 15 := by
  have hall : (a ++ b).all isDigitC = true := by
    rw [List.all_append, ha, hb]
    rfl
  have hne2 : a ++ b ≠ [] := fun hcon => hne (List.append_eq_nil.mp hcon).1
  have hstrip : ∀ c : Char, isStrippedChar c = true →
      stripChars (a ++ c :: b) = a ++ b := by
    intro c hc
    have h1 : stripChars (a ++ c :: b) = stripChars a ++ stripChars (c :: b) :=
      List.filter_append a (c :: b)
    have h2 : stripChars (c :: b) = stripChars b :=
      List.filter_cons_of_neg (by simp [hc])
    rw [h1, h2, stripChars_of_all_digits ha, stripChars_of_all_digits hb]
  refine ⟨?_, ?_, digitsToNat_append a b, by decide, by decide⟩
  · show parseNumeric (stripChars (a ++ '.' :: b)) = _
    rw [hstrip '.' rfl]
    exact parseNumeric_all_digits hall hne2
  · show parseNumeric (stripChars (a ++ ',' :: b)) = _
    rw [hstrip ',' rfl]
    exact parseNumeric_all_digits hall hne2

/-- C10 witness: the digit-run concatenation at `"20.5"`. -/
theorem decimal_separators_deleted_witness :
    normalizeCell (Cell.str ⟨['2', '0'] ++ '.' :: ['5']⟩) =
      some ((digitsToNat (['2', '0'] ++ ['5']) : Int)) :=
  (decimal_separators_deleted ['2', '0'] ['5'] (by decide) (by decide) (by decide)).1

end AnaliseFinancas
